import Mathlib

/-!
Verification of the pycwl CloudWatch log handler (src/pycwl/__init__.py).

The development shallowly embeds the handler:

* `submitBatch` models `CloudWatchLogHandler._submit_batch` (lines 60-82):
  the store responses to the one or two `put_log_events` calls are passed in
  as oracle arguments, and the result records the requests actually issued,
  the `sequence_tokens` dict afterwards, and whether the call returned
  normally or raised.
* `senderLoop` / `batchSender` model the `batch_sender` accumulation loop
  (lines 109-138) as a fold over the scripted outcomes of the successive
  `queue.get` calls of the inner loop.
* `emit` models `CloudWatchLogHandler.emit` (lines 84-107).
* `wstep` / `runActs` model one stream worker together with the
  `unfinished_tasks` accounting of the Python `Queue`
  (`put` / `task_done` / `join`), at statement granularity, so that
  interleavings of producer threads, `flush`, and the worker are explicit
  action scripts. `flush` (lines 140-147) puts `END` on every queue and
  then blocks in `queue.join()` until `unfinished_tasks` reaches zero.

Reading notes, fixed throughout the development:

* The source line `except queue.Empty: pass` is read as catching the
  queue-module `Empty` exception raised by a `queue.get` timeout (the
  evident intent); on that path the variable `msg` keeps its previous
  value.
* A Python dict is modelled at the granularity the code uses it:
  `sequence_tokens` as a total map `String → Option String` where `none`
  stands for the value `None` (the key is created by `emit` before any
  submit), together with a key list `seen` for the membership test
  `stream_name not in self.sequence_tokens`; `queues` as an association
  list.
* `msg == self.END` can only hold for the sentinel `END` itself: a queued
  message is a two-element dict and `END = 1`.
-/

/-- One log event as queued by emit: dict(timestamp=..., message=...). -/
structure QMsg where
  timestamp : Int
  message : String
deriving DecidableEq

/-- Error information of a botocore ClientError, as the code reads it:
response Error Code and Error Message. -/
structure ClientErrorInfo where
  code : String
  message : String
deriving DecidableEq

/-- Outcome of one put_log_events call, at the granularity the code
inspects it: either a ClientError, or a response with or without the
rejectedLogEventsInfo key and with a nextSequenceToken. -/
inductive PutLogEventsResult where
  | ok (rejectedLogEventsInfo : Bool) (nextSequenceToken : String)
  | clientError (e : ClientErrorInfo)
deriving DecidableEq

/-- The kwargs of one put_log_events call; sequenceToken is omitted from
the request exactly when this field is none (lines 62-65). -/
structure PutRequest where
  logGroupName : String
  logStreamName : String
  logEvents : List QMsg
  sequenceToken : Option String
deriving DecidableEq

/-- The exceptions _submit_batch can raise: a propagated ClientError, or
the Exception raised on a rejectedLogEventsInfo response (line 79). -/
inductive SubmitError where
  | clientError (e : ClientErrorInfo)
  | rejected
deriving DecidableEq

/-- Result of one _submit_batch call: the put_log_events requests issued
in order, the sequence_tokens map afterwards, and normal return or raise. -/
structure SubmitResult where
  requests : List PutRequest
  sequence_tokens : String → Option String
  outcome : Except SubmitError Unit

/-- message.rsplit(" ", 1)[-1] (line 72): the part of the string after the
last space character, the whole string when no space occurs. -/
def rsplitLastSpace (s : String) : String :=
  ((s.toList.reverse.takeWhile (fun c => c ∉ (" ").toList)).reverse).asString

/-- The error codes of line 70-71 that trigger the single retry. -/
def isStaleTokenCode (c : String) : Bool :=
  c = "DataAlreadyAcceptedException" || c = "InvalidSequenceTokenException"

/-- Lines 77-81: the checks run once a response was obtained (from the
first call or from the retry): raise on rejectedLogEventsInfo, otherwise
store nextSequenceToken for the stream and return. -/
def submitResponse (sequence_tokens : String → Option String) (stream_name : String)
    (reqs : List PutRequest) (rejectedLogEventsInfo : Bool) (nextSequenceToken : String) :
    SubmitResult :=
  if rejectedLogEventsInfo then
    { requests := reqs, sequence_tokens := sequence_tokens, outcome := .error .rejected }
  else
    { requests := reqs,
      sequence_tokens :=
        fun s => if s = stream_name then some nextSequenceToken else sequence_tokens s,
      outcome := .ok () }

/-- CloudWatchLogHandler._submit_batch (lines 60-82). r1 answers the
first put_log_events call; r2 answers the retry and is consulted only
when the retry happens. -/
def submitBatch (log_group : String) (sequence_tokens : String → Option String)
    (batch : List QMsg) (stream_name : String)
    (r1 r2 : PutLogEventsResult) : SubmitResult :=
  let req1 : PutRequest :=
    { logGroupName := log_group, logStreamName := stream_name,
      logEvents := batch, sequenceToken := sequence_tokens stream_name }
  match r1 with
  | .ok rej next => submitResponse sequence_tokens stream_name [req1] rej next
  | .clientError e =>
    if isStaleTokenCode e.code then
      let req2 : PutRequest := { req1 with sequenceToken := some (rsplitLastSpace e.message) }
      match r2 with
      | .ok rej next => submitResponse sequence_tokens stream_name [req1, req2] rej next
      | .clientError e2 =>
        { requests := [req1, req2], sequence_tokens := sequence_tokens,
          outcome := .error (.clientError e2) }
    else
      { requests := [req1], sequence_tokens := sequence_tokens,
        outcome := .error (.clientError e) }

/-- Modelled from the words of claim C3 (for comparison only, not from the
source): the substring of the error message after the last whitespace
separator. -/
def specAfterLastWhitespace (s : String) : String :=
  ((s.toList.reverse.takeWhile (fun c => !c.isWhitespace)).reverse).asString

/-- size(msg) inside batch_sender (lines 112-113): the length of the
message text plus 26. -/
def msgSize (m : QMsg) : Nat := m.message.length + 26

/-- Value of the msg variable of batch_sender: None initially, afterwards
the last value queue.get returned, which is a message dict or END. -/
inductive MVal where
  | noneV
  | strV (m : QMsg)
  | endV
deriving DecidableEq

/-- Outcome of one queue.get call of the inner loop (line 123), scripted:
item m l means a message dict was returned, with l true exactly when
time.time() is already past cur_batch_deadline at the subsequent check;
sentinel means END was returned; timeout means the Empty exception was
raised, which can only happen once the deadline has passed, and on which
msg keeps its previous value. -/
inductive QGet where
  | item (m : QMsg) (late : Bool)
  | sentinel
  | timeout
deriving DecidableEq

/-- How a run of batch_sender ended. -/
inductive SenderOutcome where
  | finished
  | crashed
  | starved
deriving DecidableEq

/-- The two nested loops of batch_sender (lines 116-137) over a script of
queue.get outcomes, one script entry per inner-loop iteration. State:
mval is the msg variable, batch / bsize / bcount are cur_batch,
cur_batch_size and cur_batch_msg_count. Branches:

* END returned: the disjunction on line 126 is true, cur_batch is
  submitted and the outer loop exits (msg == END), so the run is finished.
* timeout while msg is still None: line 127 evaluates size(None), which
  raises TypeError and kills the worker thread: crashed, nothing
  submitted.
* timeout with msg holding the previously processed message: the deadline
  has passed, so the disjunction is true: cur_batch is submitted and the
  outer loop reopens with cur_batch = [msg], reusing the stale message.
* a message m with the size, count or deadline condition true: cur_batch
  is submitted without m and the outer loop reopens with cur_batch = [m].
* otherwise m is appended to cur_batch (a message dict is truthy).

The first result component lists the submitted batches in order. -/
def senderLoop (maxSize maxCount : Nat) (mval : MVal) (batch : List QMsg)
    (bsize bcount : Nat) : List QGet → List (List QMsg) × SenderOutcome
  | [] => ([], .starved)
  | .sentinel :: _ => ([batch], .finished)
  | .item m l :: evs =>
    if maxSize < bsize + msgSize m ∨ maxCount ≤ bcount ∨ l = true then
      let r := senderLoop maxSize maxCount (.strV m) [m] (msgSize m) 1 evs
      (batch :: r.1, r.2)
    else
      senderLoop maxSize maxCount (.strV m) (batch ++ [m]) (bsize + msgSize m) (bcount + 1) evs
  | .timeout :: evs =>
    match mval with
    | .noneV => ([], .crashed)
    | .endV => ([batch], .finished)
    | .strV m =>
      let r := senderLoop maxSize maxCount (.strV m) [m] (msgSize m) 1 evs
      (batch :: r.1, r.2)

/-- batch_sender from its initial state (line 111: msg = None, line 117:
cur_batch = []). -/
def batchSender (maxSize maxCount : Nat) (events : List QGet) :
    List (List QMsg) × SenderOutcome :=
  senderLoop maxSize maxCount .noneV [] 0 0 events

/-- The messages of a script that the worker can still read: the item
entries before the first sentinel. -/
def itemsBefore : List QGet → List QMsg
  | [] => []
  | .sentinel :: _ => []
  | .item m _ :: evs => m :: itemsBefore evs
  | .timeout :: evs => itemsBefore evs

/-- One value held by a per-stream queue: a message dict, or END. -/
inductive QItem where
  | msg (m : QMsg)
  | endMark
deriving DecidableEq

/-- A logging record as emit consumes it: record.name, the timestamp
already converted to integer milliseconds (int(message.created * 1000),
line 94; the floating-point conversion itself is taken as input), and
record.msg. -/
structure LogRecord where
  name : String
  createdMs : Int
  msg : String
deriving DecidableEq

/-- The handler state emit touches: the configuration, the key set and
value map of the sequence_tokens dict, and the queues dict as an
association list from stream name to queue contents. -/
structure HandlerState where
  log_group : String
  use_queues : Bool
  seen : List String
  sequence_tokens : String → Option String
  queues : List (String × List QItem)

/-- Outcome of the idempotent create_log_stream call on line 90:
ResourceAlreadyExistsException is swallowed by _idempotent_create, any
other ClientError propagates. -/
inductive CreateStreamResult where
  | ok
  | alreadyExists
  | otherError (e : ClientErrorInfo)
deriving DecidableEq

/-- The exceptions emit can propagate: a create_log_stream failure during
lazy provisioning, or (in the synchronous path) a _submit_batch failure. -/
inductive EmitError where
  | createFailed (e : ClientErrorInfo)
  | delivery (e : SubmitError)
deriving DecidableEq

/-- Result of one emit call: the handler state afterwards, the
put_log_events requests issued during the call, whether a batch_sender
worker thread was started, and normal return or raise. -/
structure EmitOut where
  state : HandlerState
  putLogEventsCalls : List PutRequest
  spawnedWorker : Bool
  outcome : Except EmitError Unit

/-- Association-list lookup, first matching key. -/
def alookup (d : List (String × List QItem)) (k : String) : Option (List QItem) :=
  match d with
  | [] => none
  | p :: d => if p.1 = k then some p.2 else alookup d k

/-- Overwrite the value stored under an existing key. -/
def updateAssoc (d : List (String × List QItem)) (k : String) (v : List QItem) :
    List (String × List QItem) :=
  d.map fun p => if p.1 = k then (k, v) else p

/-- Lines 94-107 of emit, after the stream is registered: build the
message dict; with use_queues, create the queue and start the worker when
the stream has no queue yet, then put the message; without use_queues,
call _submit_batch synchronously with the single-message batch. -/
def emitAfterRegistration (st : HandlerState) (message : LogRecord)
    (r1 r2 : PutLogEventsResult) : EmitOut :=
  let stream_name := message.name
  let msg : QMsg := { timestamp := message.createdMs, message := message.msg }
  if st.use_queues then
    match alookup st.queues stream_name with
    | some q =>
      { state := { st with queues := updateAssoc st.queues stream_name (q ++ [QItem.msg msg]) },
        putLogEventsCalls := [], spawnedWorker := false, outcome := .ok () }
    | none =>
      { state := { st with queues := st.queues ++ [(stream_name, [QItem.msg msg])] },
        putLogEventsCalls := [], spawnedWorker := true, outcome := .ok () }
  else
    let r := submitBatch st.log_group st.sequence_tokens [msg] stream_name r1 r2
    { state := { st with sequence_tokens := r.sequence_tokens },
      putLogEventsCalls := r.requests, spawnedWorker := false,
      outcome := r.outcome.mapError EmitError.delivery }

/-- CloudWatchLogHandler.emit (lines 84-107). Lines 88-92: when the stream
name has no sequence_tokens entry yet, idempotently create the log stream
(propagating a create failure) and initialise the entry to None; then
continue with lines 94-107. -/
def emit (st : HandlerState) (message : LogRecord) (createRes : CreateStreamResult)
    (r1 r2 : PutLogEventsResult) : EmitOut :=
  let stream_name := message.name
  if stream_name ∈ st.seen then
    emitAfterRegistration st message r1 r2
  else
    match createRes with
    | .otherError e =>
      { state := st, putLogEventsCalls := [], spawnedWorker := false,
        outcome := .error (.createFailed e) }
    | _ =>
      emitAfterRegistration
        { st with seen := stream_name :: st.seen,
                  sequence_tokens :=
                    fun s => if s = stream_name then none else st.sequence_tokens s }
        message r1 r2

/-- The first phase of flush (lines 142-144): put END on every queue. The
second phase joins every queue; a join on one queue returns once its
unfinished_tasks counter reaches zero, which the worker model below makes
explicit. -/
def flushPutEnds (st : HandlerState) : HandlerState :=
  { st with queues := st.queues.map fun p => (p.1, p.2 ++ [QItem.endMark]) }

/-- Where the worker of one stream stands between scheduler steps. -/
inductive Phase where
  | idle
  | checking
  | stopped
  | crashed
deriving DecidableEq

/-- State of one stream: its queue contents, the unfinished_tasks counter
of the Python Queue (incremented by put, decremented by task_done), the
worker position and loop variables, the batches submitted so far, and
whether flush has already enqueued END. -/
structure WState where
  queue : List QItem
  unfinished : Nat
  phase : Phase
  mval : MVal
  late : Bool
  batch : List QMsg
  bsize : Nat
  bcount : Nat
  submitted : List (List QMsg)
  endPut : Bool
deriving DecidableEq

/-- Scheduler actions over one stream: a producer put (emit), the flush
put of END, the worker queue.get returning the head item (late gives
whether the deadline has passed by the time of the line 126 check), the
worker queue.get raising Empty (only with an empty queue, and then the
deadline has passed), and the worker executing the checks of lines
126-137 for the value it holds. -/
inductive Act where
  | put (m : QMsg)
  | putEnd
  | take (late : Bool)
  | timeoutA
  | check
deriving DecidableEq

/-- queue.task_done(): raises ValueError (killing the worker thread) when
called more times than items were put, otherwise decrements
unfinished_tasks. -/
def taskDone (s : WState) : WState :=
  if s.unfinished = 0 then { s with phase := .crashed }
  else { s with unfinished := s.unfinished - 1 }

/-- Lines 126-137 for the value the worker holds. The order of effects
follows the source: on the submit path, _submit_batch runs before
task_done; on the append path, the append happens before task_done. When
task_done raises, the thread dies (crashed) with the state it had. -/
def wcheck (maxSize maxCount : Nat) (s : WState) : WState :=
  match s.mval with
  | .endV =>
    let s1 := taskDone { s with submitted := s.submitted ++ [s.batch] }
    if s1.phase = .crashed then s1 else { s1 with phase := .stopped }
  | .noneV =>
    { s with phase := .crashed }
  | .strV m =>
    if maxSize < s.bsize + msgSize m ∨ maxCount ≤ s.bcount ∨ s.late = true then
      let s1 := taskDone { s with submitted := s.submitted ++ [s.batch] }
      if s1.phase = .crashed then s1
      else { s1 with batch := [m], bsize := msgSize m, bcount := 1, late := false,
                     phase := .idle }
    else
      let s1 := taskDone { s with batch := s.batch ++ [m], bsize := s.bsize + msgSize m,
                                  bcount := s.bcount + 1 }
      if s1.phase = .crashed then s1 else { s1 with phase := .idle }

/-- One scheduler step. put and putEnd can fire at any time (they run on
other threads); take and timeoutA only with the worker waiting in
queue.get; check only with the worker between its queue.get and the
if/elif of lines 126-137; an action whose guard does not hold leaves the
state unchanged (the scheduler cannot take it). -/
def wstep (maxSize maxCount : Nat) (s : WState) (a : Act) : WState :=
  match a with
  | .put m => { s with queue := s.queue ++ [QItem.msg m], unfinished := s.unfinished + 1 }
  | .putEnd => { s with queue := s.queue ++ [QItem.endMark], unfinished := s.unfinished + 1,
                        endPut := true }
  | .take late =>
    match s.phase, s.queue with
    | .idle, i :: rest =>
      { s with queue := rest, phase := .checking, late := late,
               mval := match i with | .msg m => .strV m | .endMark => .endV }
    | _, _ => s
  | .timeoutA =>
    match s.phase, s.queue with
    | .idle, [] => { s with phase := .checking, late := true }
    | _, _ => s
  | .check =>
    if s.phase = .checking then wcheck maxSize maxCount s else s

/-- Run a scheduler script. -/
def runActs (maxSize maxCount : Nat) (s : WState) (acts : List Act) : WState :=
  acts.foldl (wstep maxSize maxCount) s

/-- Worker and queue state right after the thread is started: empty queue,
counter zero, msg = None, empty batch. -/
def winit : WState :=
  { queue := [], unfinished := 0, phase := .idle, mval := .noneV, late := false,
    batch := [], bsize := 0, bcount := 0, submitted := [], endPut := false }

/-- The queue items a script of actions puts, in order. -/
def putsOf : List Act → List QItem
  | [] => []
  | .put m :: acts => QItem.msg m :: putsOf acts
  | .putEnd :: acts => QItem.endMark :: putsOf acts
  | _ :: acts => putsOf acts

/-- The interleaving used against claim C7: the producer emits message a,
the worker reads and appends it, the deadline elapses (queue.get raises
Empty), the producer emits message b before the worker reaches its
task_done on the timeout path, flush puts END, and the worker then reads
and appends b. -/
def c7Script : List Act :=
  [Act.put ⟨0, "a"⟩, Act.take false, Act.check, Act.timeoutA,
   Act.put ⟨0, "b"⟩, Act.check, Act.putEnd, Act.take false, Act.check]

/-- Helper: whatever the responses, the first put_log_events request of a
_submit_batch call carries the group, the stream, the batch, and the
stored token of the stream (lines 62-65). -/
theorem submitBatch_first_request (log_group : String)
    (sequence_tokens : String → Option String) (batch : List QMsg)
    (stream_name : String) (r1 r2 : PutLogEventsResult) :
    (submitBatch log_group sequence_tokens batch stream_name r1 r2).requests.head?
      = some { logGroupName := log_group, logStreamName := stream_name,
               logEvents := batch, sequenceToken := sequence_tokens stream_name } := by
  cases r1 with
  | ok rej next => cases rej <;> simp [submitBatch, submitResponse]
  | clientError e =>
    by_cases hstale : isStaleTokenCode e.code = true
    · cases r2 with
      | ok rej next => cases rej <;> simp [submitBatch, submitResponse, hstale]
      | clientError e2 => simp [submitBatch, hstale]
    · simp [submitBatch, hstale]

/-- C2: the sequence token included in submission n+1 to the remote store
is exactly the nextSequenceToken returned by submission n for that stream
(first conjunct: the next _submit_batch on the same stream sends it in its
first request), the token is absent for the first-ever submission of the
stream (second conjunct: emit initialises the entry to None, and the first
request then omits the token), and a submission leaves the entries of all
other streams unchanged (third conjunct). -/
theorem c2_sequence_token_continuity
    (log_group stream_name : String) (sequence_tokens : String → Option String)
    (b1 b2 : List QMsg) (r1 r2 r1' r2' : PutLogEventsResult) (next : String)
    (hok : r1 = .ok false next ∨
           ∃ e, r1 = .clientError e ∧ isStaleTokenCode e.code = true ∧ r2 = .ok false next) :
    ((submitBatch log_group
        (submitBatch log_group sequence_tokens b1 stream_name r1 r2).sequence_tokens
        b2 stream_name r1' r2').requests.head?.map PutRequest.sequenceToken)
      = some (some next)
  ∧ (sequence_tokens stream_name = none →
      ((submitBatch log_group sequence_tokens b1 stream_name r1 r2).requests.head?.map
        PutRequest.sequenceToken) = some none)
  ∧ (∀ s, s ≠ stream_name →
      (submitBatch log_group sequence_tokens b1 stream_name r1 r2).sequence_tokens s
        = sequence_tokens s) := by
  refine ⟨?_, ?_, ?_⟩
  · have hs : (submitBatch log_group sequence_tokens b1 stream_name r1 r2).sequence_tokens
        stream_name = some next := by
      rcases hok with rfl | ⟨e, rfl, hstale, rfl⟩
      · simp [submitBatch, submitResponse]
      · simp [submitBatch, submitResponse, hstale]
    rw [submitBatch_first_request]
    simp [hs]
  · intro h
    rw [submitBatch_first_request]
    simp [h]
  · intro s hs
    rcases hok with rfl | ⟨e, rfl, hstale, rfl⟩
    · simp [submitBatch, submitResponse, hs]
    · simp [submitBatch, submitResponse, hs, hstale]

/-- Witness for c2_sequence_token_continuity at a concrete input: after a
first successful submission returning token t1, the next submission on the
same stream sends sequenceToken t1 in its first request. -/
theorem c2_witness :
    ((submitBatch ("g")
        (submitBatch ("g") (fun _ => none) [] ("s") (.ok false ("t1")) (.ok false ("t1"))).sequence_tokens
        [] ("s") (.ok false ("t2")) (.ok false ("t2"))).requests.head?.map PutRequest.sequenceToken)
      = some (some ("t1")) :=
  (c2_sequence_token_continuity ("g") ("s") (fun _ => none) [] []
    (.ok false ("t1")) (.ok false ("t1")) (.ok false ("t2")) (.ok false ("t2")) ("t1")
    (Or.inl rfl)).1

/-- C3 counterexample: the claim says the corrected token is the substring
of the error message after the last whitespace separator, but the code
splits on the last space character only (rsplit with a space separator).
On the message below the last whitespace separator is a tab, so the claim
predicts the retry token is the part after the tab, while the code retries
with the part after the last space, which still contains the tab. -/
theorem c3_counterexample :
    specAfterLastWhitespace ("expected sequence token is 49\t50") = ("50")
  ∧ ((submitBatch ("g") (fun _ => none) [] ("C")
        (.clientError { code := "InvalidSequenceTokenException",
                        message := "expected sequence token is 49\t50" })
        (.ok false ("next"))).requests.map PutRequest.sequenceToken)
      = [none, some ("49\t50")]
  ∧ ("49\t50" : String) ≠ ("50") := by
  refine ⟨by decide, ?_, by decide⟩
  decide

/-- C3 (amended): when the first put_log_events call fails with a
DataAlreadyAccepted or InvalidSequenceToken error, the corrected token is
the substring of the error message after the last space character (the
whole message when it has no space), and the same batch is retried exactly
once with that token: exactly two requests are issued, identical except
for the sequenceToken; a failure of the retry is propagated as fatal with
no further request; any other error class on the first call is propagated
unchanged with no retry. -/
theorem c3_stale_token_retry
    (log_group stream_name : String) (sequence_tokens : String → Option String)
    (batch : List QMsg) (e : ClientErrorInfo) (r2 : PutLogEventsResult) :
    (isStaleTokenCode e.code = true →
        (submitBatch log_group sequence_tokens batch stream_name (.clientError e) r2).requests
          = [ { logGroupName := log_group, logStreamName := stream_name, logEvents := batch,
                sequenceToken := sequence_tokens stream_name },
              { logGroupName := log_group, logStreamName := stream_name, logEvents := batch,
                sequenceToken := some (rsplitLastSpace e.message) } ]
      ∧ ∀ e2, r2 = .clientError e2 →
          (submitBatch log_group sequence_tokens batch stream_name (.clientError e) r2).outcome
            = .error (.clientError e2))
  ∧ (isStaleTokenCode e.code = false →
        (submitBatch log_group sequence_tokens batch stream_name (.clientError e) r2).requests
          = [ { logGroupName := log_group, logStreamName := stream_name, logEvents := batch,
                sequenceToken := sequence_tokens stream_name } ]
      ∧ (submitBatch log_group sequence_tokens batch stream_name (.clientError e) r2).outcome
          = .error (.clientError e)) := by
  constructor
  · intro hstale
    refine ⟨?_, ?_⟩
    · cases r2 with
      | ok rej next => cases rej <;> simp [submitBatch, submitResponse, hstale]
      | clientError e2 => simp [submitBatch, hstale]
    · rintro e2 rfl
      simp [submitBatch, hstale]
  · intro hother
    cases r2 <;> simp [submitBatch, hother]

/-- Witness for c3_stale_token_retry at a concrete input: a stale-token
error whose message ends in a space and a token yields exactly one retry
carrying that token. -/
theorem c3_witness :
    (submitBatch ("g") (fun _ => none) [] ("C")
        (.clientError { code := "InvalidSequenceTokenException", message := "token is 49" })
        (.ok false ("n"))).requests
      = [ { logGroupName := "g", logStreamName := "C", logEvents := [], sequenceToken := none },
          { logGroupName := "g", logStreamName := "C", logEvents := [],
            sequenceToken := some (rsplitLastSpace ("token is 49")) } ] :=
  ((c3_stale_token_retry ("g") ("C") (fun _ => none) []
      { code := "InvalidSequenceTokenException", message := "token is 49" }
      (.ok false ("n"))).1 rfl).1

/-- C9: when _submit_batch fails in any way (a non-recoverable transport
error, a failure of the single stale-token retry, or a response carrying
rejectedLogEventsInfo), the sequence_tokens entry of every stream is left
unchanged; the entry of the stream is overwritten exactly when every
failure check has passed, and then with the nextSequenceToken of the
successful response. -/
theorem c9_token_store_on_failure
    (log_group stream_name : String) (sequence_tokens : String → Option String)
    (batch : List QMsg) (r1 r2 : PutLogEventsResult) :
    (∀ err,
        (submitBatch log_group sequence_tokens batch stream_name r1 r2).outcome = .error err →
        ∀ s, (submitBatch log_group sequence_tokens batch stream_name r1 r2).sequence_tokens s
              = sequence_tokens s)
  ∧ ((submitBatch log_group sequence_tokens batch stream_name r1 r2).outcome = .ok () →
      ∃ next,
        (∀ s, (submitBatch log_group sequence_tokens batch stream_name r1 r2).sequence_tokens s
                = if s = stream_name then some next else sequence_tokens s)
      ∧ (r1 = .ok false next ∨
          ∃ e, r1 = .clientError e ∧ isStaleTokenCode e.code = true ∧ r2 = .ok false next)) := by
  constructor
  · intro err herr s
    cases r1 with
    | ok rej next =>
      cases rej <;> simp_all [submitBatch, submitResponse]
    | clientError e =>
      by_cases hstale : isStaleTokenCode e.code = true
      · cases r2 with
        | ok rej next =>
          cases rej <;> simp_all [submitBatch, submitResponse, hstale]
        | clientError e2 => simp_all [submitBatch, hstale]
      · simp_all [submitBatch, hstale]
  · intro hok
    cases r1 with
    | ok rej next =>
      cases rej with
      | false => exact ⟨next, fun s => by simp [submitBatch, submitResponse], Or.inl rfl⟩
      | true => simp [submitBatch, submitResponse] at hok
    | clientError e =>
      by_cases hstale : isStaleTokenCode e.code = true
      · cases r2 with
        | ok rej next =>
          cases rej with
          | false =>
            exact ⟨next, fun s => by simp [submitBatch, submitResponse, hstale],
              Or.inr ⟨e, rfl, hstale, rfl⟩⟩
          | true => simp [submitBatch, submitResponse, hstale] at hok
        | clientError e2 => simp [submitBatch, hstale] at hok
      · simp [submitBatch, hstale] at hok

/-- Witness for c9_token_store_on_failure at a concrete input: a
non-recoverable error leaves the entry of the stream untouched. -/
theorem c9_witness :
    (submitBatch ("g") (fun _ => none) [] ("s")
        (.clientError { code := "SomethingElseException", message := "m" })
        (.ok false ("n"))).sequence_tokens ("s") = none :=
  (c9_token_store_on_failure ("g") ("s") (fun _ => none) []
      (.clientError { code := "SomethingElseException", message := "m" })
      (.ok false ("n"))).1
    (.clientError { code := "SomethingElseException", message := "m" }) rfl ("s")

/-- Helper: a batch that satisfies the accumulation invariant (size sum
within the bound, or a single message) satisfies the size bound of C4 in
its length form. -/
theorem batch_size_ok (maxSize : Nat) (batch : List QMsg)
    (hinv : (batch.map msgSize).sum ≤ maxSize ∨ batch.length = 1) :
    (batch.map msgSize).sum ≤ maxSize ∨
      (batch.length = 1 ∧ maxSize < (batch.map msgSize).sum) := by
  rcases hinv with h | h
  · exact Or.inl h
  · by_cases hm : (batch.map msgSize).sum ≤ maxSize
    · exact Or.inl hm
    · exact Or.inr ⟨h, Nat.lt_of_not_le hm⟩

/-- Helper: every batch senderLoop submits keeps the size invariant:
either its summed size cost is at most maxSize, or it is a single
message. -/
theorem senderLoop_size_invariant (maxSize maxCount : Nat) :
    ∀ (evs : List QGet) (mval : MVal) (batch : List QMsg) (bsize bcount : Nat),
      bsize = (batch.map msgSize).sum →
      ((batch.map msgSize).sum ≤ maxSize ∨ batch.length = 1) →
      ∀ b ∈ (senderLoop maxSize maxCount mval batch bsize bcount evs).1,
        (b.map msgSize).sum ≤ maxSize ∨
          (b.length = 1 ∧ maxSize < (b.map msgSize).sum) := by
  intro evs
  induction evs with
  | nil =>
    intro mval batch bsize bcount hsz hinv b hb
    simp [senderLoop] at hb
  | cons ev evs ih =>
    intro mval batch bsize bcount hsz hinv b hb
    cases ev with
    | sentinel =>
      simp [senderLoop] at hb
      exact hb ▸ batch_size_ok maxSize batch hinv
    | item m l =>
      rw [senderLoop] at hb
      by_cases hcond : maxSize < bsize + msgSize m ∨ maxCount ≤ bcount ∨ l = true
      · rw [if_pos hcond] at hb
        rcases List.mem_cons.mp hb with rfl | hb
        · exact batch_size_ok maxSize b hinv
        · exact ih (.strV m) [m] (msgSize m) 1 (by simp) (Or.inr rfl) b hb
      · rw [if_neg hcond] at hb
        refine ih (.strV m) (batch ++ [m]) (bsize + msgSize m) (bcount + 1) ?_ ?_ b hb
        · simp [hsz]
        · left
          have hle : bsize + msgSize m ≤ maxSize := by
            rcases Nat.lt_or_ge maxSize (bsize + msgSize m) with hlt | hge
            · exact absurd (Or.inl hlt) hcond
            · exact hge
          calc ((batch ++ [m]).map msgSize).sum
              = (batch.map msgSize).sum + msgSize m := by simp
            _ = bsize + msgSize m := by rw [hsz]
            _ ≤ maxSize := hle
    | timeout =>
      cases mval with
      | noneV => simp [senderLoop] at hb
      | endV =>
        simp [senderLoop] at hb
        exact hb ▸ batch_size_ok maxSize batch hinv
      | strV m =>
        rw [senderLoop] at hb
        rcases List.mem_cons.mp hb with rfl | hb
        · exact batch_size_ok maxSize b hinv
        · exact ih (.strV m) [m] (msgSize m) 1 (by simp) (Or.inr rfl) b hb

/-- Helper: when a senderLoop run finishes (the sentinel was processed),
the whole current batch ends up inside the submitted batches. -/
theorem senderLoop_batch_mem (maxSize maxCount : Nat) :
    ∀ (evs : List QGet) (mval : MVal) (batch : List QMsg) (bsize bcount : Nat),
      (senderLoop maxSize maxCount mval batch bsize bcount evs).2 = .finished →
      ∀ x ∈ batch,
        x ∈ (senderLoop maxSize maxCount mval batch bsize bcount evs).1.flatten := by
  intro evs
  induction evs with
  | nil =>
    intro mval batch bsize bcount hfin x hx
    simp [senderLoop] at hfin
  | cons ev evs ih =>
    intro mval batch bsize bcount hfin x hx
    cases ev with
    | sentinel => simpa [senderLoop] using hx
    | item m l =>
      rw [senderLoop] at hfin ⊢
      by_cases hcond : maxSize < bsize + msgSize m ∨ maxCount ≤ bcount ∨ l = true
      · rw [if_pos hcond] at hfin ⊢
        simp only [List.flatten_cons, List.mem_append]
        exact Or.inl hx
      · rw [if_neg hcond] at hfin ⊢
        exact ih (.strV m) (batch ++ [m]) (bsize + msgSize m) (bcount + 1) hfin x
          (List.mem_append_left _ hx)
    | timeout =>
      cases mval with
      | noneV => simp [senderLoop] at hfin
      | endV => simpa [senderLoop] using hx
      | strV m =>
        rw [senderLoop] at hfin ⊢
        simp only [List.flatten_cons, List.mem_append]
        exact Or.inl hx

/-- Helper: when a run that did not already see END finishes, every
message read from the queue before the sentinel lands in some submitted
batch. -/
theorem senderLoop_no_drop (maxSize maxCount : Nat) :
    ∀ (evs : List QGet) (mval : MVal) (batch : List QMsg) (bsize bcount : Nat),
      mval ≠ .endV →
      (senderLoop maxSize maxCount mval batch bsize bcount evs).2 = .finished →
      ∀ x ∈ itemsBefore evs,
        x ∈ (senderLoop maxSize maxCount mval batch bsize bcount evs).1.flatten := by
  intro evs
  induction evs with
  | nil =>
    intro mval batch bsize bcount hmv hfin x hx
    simp [senderLoop] at hfin
  | cons ev evs ih =>
    intro mval batch bsize bcount hmv hfin x hx
    cases ev with
    | sentinel => simp [itemsBefore] at hx
    | item m l =>
      rw [itemsBefore] at hx
      rw [senderLoop] at hfin ⊢
      by_cases hcond : maxSize < bsize + msgSize m ∨ maxCount ≤ bcount ∨ l = true
      · rw [if_pos hcond] at hfin ⊢
        simp only at hfin
        simp only [List.flatten_cons, List.mem_append]
        rcases List.mem_cons.mp hx with rfl | hx
        · exact Or.inr (senderLoop_batch_mem maxSize maxCount evs (.strV x) [x]
            (msgSize x) 1 hfin x (by simp))
        · exact Or.inr (ih (.strV m) [m] (msgSize m) 1 (by simp) hfin x hx)
      · rw [if_neg hcond] at hfin ⊢
        rcases List.mem_cons.mp hx with rfl | hx
        · exact senderLoop_batch_mem maxSize maxCount evs (.strV x)
            (batch ++ [x]) (bsize + msgSize x) (bcount + 1) hfin x (by simp)
        · exact ih (.strV m) (batch ++ [m]) (bsize + msgSize m) (bcount + 1)
            (by simp) hfin x hx
    | timeout =>
      cases mval with
      | noneV => simp [senderLoop] at hfin
      | endV => exact absurd rfl hmv
      | strV m =>
        rw [itemsBefore] at hx
        rw [senderLoop] at hfin ⊢
        simp only at hfin
        simp only [List.flatten_cons, List.mem_append]
        exact Or.inr (ih (.strV m) [m] (msgSize m) 1 (by simp) hfin x hx)

/-- C4: every batch the worker submits has summed size cost at most
maxSize, except that a batch exceeding the bound is a single (oversized)
message; and in a run that terminates through the sentinel, no message
read before the sentinel is dropped: it appears in some submitted batch
(in particular an oversized one, which by the first part can only appear
in a batch of exactly one message). -/
theorem c4_batch_size_bound (maxSize maxCount : Nat) (events : List QGet) :
    (∀ b ∈ (batchSender maxSize maxCount events).1,
        (b.map msgSize).sum ≤ maxSize ∨
          (b.length = 1 ∧ maxSize < (b.map msgSize).sum))
  ∧ ((batchSender maxSize maxCount events).2 = .finished →
      ∀ x ∈ itemsBefore events,
        x ∈ (batchSender maxSize maxCount events).1.flatten) := by
  constructor
  · exact senderLoop_size_invariant maxSize maxCount events .noneV [] 0 0 rfl
      (Or.inl (by simp))
  · intro hfin x hx
    exact senderLoop_no_drop maxSize maxCount events .noneV [] 0 0 (by simp) hfin x hx

/-- Witness for c4_batch_size_bound at a concrete input: one small message
followed by the sentinel gives a submitted batch within the size bound,
and the message is not dropped. -/
theorem c4_witness :
    ((([⟨0, "a"⟩] : List QMsg).map msgSize).sum ≤ 100 ∨
      (([⟨0, "a"⟩] : List QMsg).length = 1 ∧
        100 < (([⟨0, "a"⟩] : List QMsg).map msgSize).sum))
  ∧ QMsg.mk 0 "a" ∈ (batchSender 100 10 [QGet.item ⟨0, "a"⟩ false, QGet.sentinel]).1.flatten := by
  constructor
  · exact (c4_batch_size_bound 100 10 [QGet.item ⟨0, "a"⟩ false, QGet.sentinel]).1
      [⟨0, "a"⟩] (by decide)
  · exact (c4_batch_size_bound 100 10 [QGet.item ⟨0, "a"⟩ false, QGet.sentinel]).2
      (by decide) ⟨0, "a"⟩ (by decide)

/-- Helper: every batch senderLoop submits keeps the count invariant. -/
theorem senderLoop_count_invariant (maxSize maxCount : Nat) (hc : 1 ≤ maxCount) :
    ∀ (evs : List QGet) (mval : MVal) (batch : List QMsg) (bsize bcount : Nat),
      bcount = batch.length → batch.length ≤ maxCount →
      ∀ b ∈ (senderLoop maxSize maxCount mval batch bsize bcount evs).1,
        b.length ≤ maxCount := by
  intro evs
  induction evs with
  | nil =>
    intro mval batch bsize bcount hn hinv b hb
    simp [senderLoop] at hb
  | cons ev evs ih =>
    intro mval batch bsize bcount hn hinv b hb
    cases ev with
    | sentinel =>
      simp [senderLoop] at hb
      exact hb ▸ hinv
    | item m l =>
      rw [senderLoop] at hb
      by_cases hcond : maxSize < bsize + msgSize m ∨ maxCount ≤ bcount ∨ l = true
      · rw [if_pos hcond] at hb
        rcases List.mem_cons.mp hb with rfl | hb
        · exact hinv
        · exact ih (.strV m) [m] (msgSize m) 1 (by simp) (by simpa using hc) b hb
      · rw [if_neg hcond] at hb
        have hlt : bcount < maxCount := by
          rcases Nat.lt_or_ge bcount maxCount with hlt | hge
          · exact hlt
          · exact absurd (Or.inr (Or.inl hge)) hcond
        refine ih (.strV m) (batch ++ [m]) (bsize + msgSize m) (bcount + 1) ?_ ?_ b hb
        · simp [hn]
        · have := Nat.succ_le_of_lt hlt
          simpa [hn] using this
    | timeout =>
      cases mval with
      | noneV => simp [senderLoop] at hb
      | endV =>
        simp [senderLoop] at hb
        exact hb ▸ hinv
      | strV m =>
        rw [senderLoop] at hb
        rcases List.mem_cons.mp hb with rfl | hb
        · exact hinv
        · exact ih (.strV m) [m] (msgSize m) 1 (by simp) (by simpa using hc) b hb

/-- C5: for any maxCount of at least 1, every batch the worker submits
contains at most maxCount messages. -/
theorem c5_batch_count_bound (maxSize maxCount : Nat) (hc : 1 ≤ maxCount)
    (events : List QGet) :
    ∀ b ∈ (batchSender maxSize maxCount events).1, b.length ≤ maxCount := by
  intro b hb
  exact senderLoop_count_invariant maxSize maxCount hc events .noneV [] 0 0 rfl
    (by simp) b hb

/-- Witness for c5_batch_count_bound at a concrete input with
maxCount = 1. -/
theorem c5_witness : ([⟨0, "a"⟩] : List QMsg).length ≤ 1 :=
  c5_batch_count_bound 100 1 (by decide) [QGet.item ⟨0, "a"⟩ false, QGet.sentinel]
    [⟨0, "a"⟩] (by decide)

/-- C1 (code bug): the accumulation loop duplicates a message across the
timeout path. The script emits the single message a, then the deadline
elapses (queue.get raises Empty, msg keeps its stale value), then flush
delivers the sentinel. Line 117 reopens the next batch as [msg] with the
already-submitted stale message, so the store receives [a] twice: the
submitted sequence is [[a], [a]] although only one message was emitted. -/
theorem c1_timeout_duplicates :
    batchSender 1048576 10000
        [QGet.item ⟨0, "a"⟩ false, QGet.timeout, QGet.sentinel]
      = ([[⟨0, "a"⟩], [⟨0, "a"⟩]], .finished)
  ∧ itemsBefore [QGet.item ⟨0, "a"⟩ false, QGet.timeout, QGet.sentinel]
      = [⟨0, "a"⟩] := by
  constructor
  · rfl
  · rfl

/-- C6 (code bug): the worker does make a Submitter call for an empty
batch, and does not reopen the deadline on an empty timeout. First
conjunct: when the sentinel is the first value read (flush racing the
first emit for the stream), line 130 submits the empty cur_batch: one
put_log_events call with an empty batch. Second conjunct: when the
deadline elapses while the batch is empty (msg still None), line 127
evaluates size(None) and the worker crashes with TypeError instead of
reopening the deadline. -/
theorem c6_empty_batch_behavior :
    batchSender 1048576 10000 [QGet.sentinel] = ([([] : List QMsg)], .finished)
  ∧ batchSender 1048576 10000 [QGet.timeout] = ([], .crashed) := by
  constructor
  · rfl
  · rfl

/-- Helper: a lookup that hits in d still hits in d ++ e. -/
theorem alookup_append_left (d e : List (String × List QItem)) (k : String)
    (v : List QItem) (h : alookup d k = some v) : alookup (d ++ e) k = some v := by
  induction d with
  | nil => simp [alookup] at h
  | cons p d ih =>
    by_cases hp : p.1 = k
    · simpa [alookup, hp] using h
    · rw [alookup, if_neg hp] at h
      simpa [alookup, hp] using ih h

/-- Helper: a lookup that misses d continues into e. -/
theorem alookup_append_right (d e : List (String × List QItem)) (k : String)
    (h : alookup d k = none) : alookup (d ++ e) k = alookup e k := by
  induction d with
  | nil => simp [alookup]
  | cons p d ih =>
    by_cases hp : p.1 = k
    · rw [alookup, if_pos hp] at h
      simp at h
    · rw [alookup, if_neg hp] at h
      simpa [alookup, hp] using ih h

/-- Helper: updating the value under a key rewrites exactly that lookup. -/
theorem alookup_update_self (d : List (String × List QItem)) (k : String)
    (v : List QItem) :
    alookup (updateAssoc d k v) k = (alookup d k).map fun _ => v := by
  induction d with
  | nil => rfl
  | cons p d ih =>
    by_cases hp : p.1 = k
    · simp [updateAssoc, alookup, hp]
    · simp only [updateAssoc, List.map_cons, if_neg hp]
      rw [alookup, if_neg hp, alookup, if_neg hp]
      exact ih

/-- Helper: updating a value never creates or removes keys. -/
theorem alookup_update_isSome (d : List (String × List QItem)) (k : String)
    (v : List QItem) (k2 : String) :
    (alookup (updateAssoc d k v) k2).isSome = (alookup d k2).isSome := by
  induction d with
  | nil => rfl
  | cons p d ih =>
    by_cases hp : p.1 = k
    · by_cases hk : k = k2
      · simp [updateAssoc, alookup, hp, hk]
      · simp only [updateAssoc, List.map_cons, if_pos hp]
        rw [alookup, if_neg hk, alookup, if_neg (hp ▸ hk)]
        exact ih
    · simp only [updateAssoc, List.map_cons, if_neg hp]
      by_cases hk : p.1 = k2
      · simp [alookup, hk]
      · rw [alookup, if_neg hk, alookup, if_neg hk]
        exact ih

/-- Helper: appending END to every queue rewrites every lookup pointwise
and in particular preserves the key set. -/
theorem alookup_map_end (d : List (String × List QItem)) (k : String) :
    alookup (d.map fun p => (p.1, p.2 ++ [QItem.endMark])) k
      = (alookup d k).map fun q => q ++ [QItem.endMark] := by
  induction d with
  | nil => rfl
  | cons p d ih =>
    by_cases hp : p.1 = k
    · simp [alookup, hp]
    · simp only [List.map_cons]
      rw [alookup, if_neg hp, alookup, if_neg hp]
      exact ih

/-- Helper: the queued path of emit (use_queues true, after registration)
makes no put_log_events call, returns normally, starts a worker exactly
when the stream has no queue entry yet, never removes a queue entry, and
appends the message to an existing queue. -/
theorem emitAfterRegistration_facts (st : HandlerState) (message : LogRecord)
    (r1 r2 : PutLogEventsResult) (hq : st.use_queues = true) :
    (emitAfterRegistration st message r1 r2).putLogEventsCalls = []
  ∧ (emitAfterRegistration st message r1 r2).outcome = .ok ()
  ∧ ((emitAfterRegistration st message r1 r2).spawnedWorker = true
      ↔ alookup st.queues message.name = none)
  ∧ (∀ k, (alookup st.queues k).isSome = true →
      (alookup (emitAfterRegistration st message r1 r2).state.queues k).isSome = true)
  ∧ (∀ q, alookup st.queues message.name = some q →
      alookup (emitAfterRegistration st message r1 r2).state.queues message.name
        = some (q ++ [QItem.msg { timestamp := message.createdMs, message := message.msg }])) := by
  cases hl : alookup st.queues message.name with
  | some q =>
    refine ⟨?_, ?_, ?_, ?_, ?_⟩
    · simp [emitAfterRegistration, hq, hl]
    · simp [emitAfterRegistration, hq, hl]
    · simp [emitAfterRegistration, hq, hl]
    · intro k hk
      simp only [emitAfterRegistration, hq, if_true, hl] at *
      simpa [alookup_update_isSome] using hk
    · intro q2 hq2
      injection hq2 with hq2
      subst hq2
      simp only [emitAfterRegistration, hq, if_true, hl]
      simp [alookup_update_self, hl]
  | none =>
    refine ⟨?_, ?_, ?_, ?_, ?_⟩
    · simp [emitAfterRegistration, hq, hl]
    · simp [emitAfterRegistration, hq, hl]
    · simp [emitAfterRegistration, hq, hl]
    · intro k hk
      simp only [emitAfterRegistration, hq, if_true, hl]
      rcases ho : alookup st.queues k with _ | v
      · rw [ho] at hk
        simp at hk
      · simp [alookup_append_left st.queues _ k v ho]
    · intro q2 hq2
      exact Option.noConfusion hq2

/-- Helper: the synchronous path of emit (use_queues false, after
registration) is exactly one _submit_batch call on the single-message
batch, with its requests and its outcome. -/
theorem emitAfterRegistration_sync (st : HandlerState) (message : LogRecord)
    (r1 r2 : PutLogEventsResult) (hq : st.use_queues = false) :
    (emitAfterRegistration st message r1 r2).putLogEventsCalls
      = (submitBatch st.log_group st.sequence_tokens
          [{ timestamp := message.createdMs, message := message.msg }]
          message.name r1 r2).requests
  ∧ (emitAfterRegistration st message r1 r2).outcome
      = ((submitBatch st.log_group st.sequence_tokens
          [{ timestamp := message.createdMs, message := message.msg }]
          message.name r1 r2).outcome).mapError EmitError.delivery := by
  constructor <;> simp [emitAfterRegistration, hq]

/-- C8: with use_queues, emit makes no put_log_events call at all and can
never raise a delivery error (its only possible failure is the lazy
create_log_stream provisioning call): delivery is fire-and-forget once
queued. With use_queues disabled (and the stream already registered),
emit is exactly one synchronous _submit_batch call on the single-message
batch and returns its outcome, completing or failing with the
submission. -/
theorem c8_emit_fire_and_forget (st : HandlerState) (message : LogRecord)
    (createRes : CreateStreamResult) (r1 r2 : PutLogEventsResult) :
    (st.use_queues = true →
        (emit st message createRes r1 r2).putLogEventsCalls = []
      ∧ ∀ e, (emit st message createRes r1 r2).outcome ≠ .error (.delivery e))
  ∧ (st.use_queues = false → message.name ∈ st.seen →
        (emit st message createRes r1 r2).putLogEventsCalls
          = (submitBatch st.log_group st.sequence_tokens
              [{ timestamp := message.createdMs, message := message.msg }]
              message.name r1 r2).requests
      ∧ (emit st message createRes r1 r2).outcome
          = ((submitBatch st.log_group st.sequence_tokens
              [{ timestamp := message.createdMs, message := message.msg }]
              message.name r1 r2).outcome).mapError EmitError.delivery) := by
  constructor
  · intro hq
    by_cases hseen : message.name ∈ st.seen
    · have h := emitAfterRegistration_facts st message r1 r2 hq
      refine ⟨?_, ?_⟩
      · simpa [emit, hseen] using h.1
      · intro e
        have ho := h.2.1
        simp [emit, hseen, ho]
    · cases createRes with
      | otherError e2 =>
        refine ⟨?_, ?_⟩
        · simp [emit, hseen]
        · intro e
          simp [emit, hseen]
      | ok =>
        have h := emitAfterRegistration_facts
          { st with seen := message.name :: st.seen,
                    sequence_tokens :=
                      fun s => if s = message.name then none else st.sequence_tokens s }
          message r1 r2 hq
        refine ⟨?_, ?_⟩
        · simpa [emit, hseen] using h.1
        · intro e
          have ho := h.2.1
          simp [emit, hseen, ho]
      | alreadyExists =>
        have h := emitAfterRegistration_facts
          { st with seen := message.name :: st.seen,
                    sequence_tokens :=
                      fun s => if s = message.name then none else st.sequence_tokens s }
          message r1 r2 hq
        refine ⟨?_, ?_⟩
        · simpa [emit, hseen] using h.1
        · intro e
          have ho := h.2.1
          simp [emit, hseen, ho]
  · intro hq hseen
    have h := emitAfterRegistration_sync st message r1 r2 hq
    exact ⟨by simpa [emit, hseen] using h.1, by simpa [emit, hseen] using h.2⟩

/-- Witness for c8_emit_fire_and_forget at a concrete input: a queued-mode
emit issues no put_log_events call. -/
theorem c8_witness :
    (emit { log_group := "g", use_queues := true, seen := [],
            sequence_tokens := fun _ => none, queues := [] }
        { name := "s", createdMs := 0, msg := "m" } .ok
        (.ok false ("n")) (.ok false ("n"))).putLogEventsCalls = [] :=
  ((c8_emit_fire_and_forget
      { log_group := "g", use_queues := true, seen := [],
        sequence_tokens := fun _ => none, queues := [] }
      { name := "s", createdMs := 0, msg := "m" } .ok
      (.ok false ("n")) (.ok false ("n"))).1 rfl).1

/-- Helper: the puts of a script decompose along cons. -/
theorem putsOf_cons (a : Act) (acts : List Act) :
    putsOf (a :: acts) = putsOf [a] ++ putsOf acts := by
  cases a <;> simp [putsOf]

/-- Helper: once the worker has stopped, a single step can only be a put
from another thread: the phase and the submitted batches are unchanged
and the queue grows by what was put. -/
theorem wstep_stopped (maxSize maxCount : Nat) (s : WState) (a : Act)
    (h : s.phase = .stopped) :
    (wstep maxSize maxCount s a).phase = .stopped
  ∧ (wstep maxSize maxCount s a).submitted = s.submitted
  ∧ (wstep maxSize maxCount s a).queue = s.queue ++ putsOf [a] := by
  cases a with
  | put m => simp [wstep, putsOf, h]
  | putEnd => simp [wstep, putsOf, h]
  | take l =>
    cases hq : s.queue with
    | nil => simp [wstep, putsOf, h, hq]
    | cons i rest => simp [wstep, putsOf, h, hq]
  | timeoutA =>
    cases hq : s.queue with
    | nil => simp [wstep, putsOf, h, hq]
    | cons i rest => simp [wstep, putsOf, h, hq]
  | check => simp [wstep, putsOf, h]

/-- Helper: once the worker has stopped nothing restarts it: under any
further script the phase stays stopped, no further batch is submitted,
and everything put lands in the queue and stays there. -/
theorem runActs_stopped (maxSize maxCount : Nat) :
    ∀ (acts : List Act) (s : WState), s.phase = .stopped →
      (runActs maxSize maxCount s acts).phase = .stopped
    ∧ (runActs maxSize maxCount s acts).submitted = s.submitted
    ∧ (runActs maxSize maxCount s acts).queue = s.queue ++ putsOf acts := by
  intro acts
  induction acts with
  | nil =>
    intro s h
    exact ⟨h, rfl, by simp [runActs, putsOf]⟩
  | cons a acts ih =>
    intro s h
    obtain ⟨h1, h2, h3⟩ := wstep_stopped maxSize maxCount s a h
    obtain ⟨g1, g2, g3⟩ := ih (wstep maxSize maxCount s a) h1
    have hr : runActs maxSize maxCount s (a :: acts)
        = runActs maxSize maxCount (wstep maxSize maxCount s a) acts := rfl
    refine ⟨hr ▸ g1, ?_, ?_⟩
    · rw [hr, g2, h2]
    · rw [hr, g3, h3, List.append_assoc, ← putsOf_cons]

/-- C10: emit starts a batch_sender worker exactly when the stream has no
entry in the queues dict (first and second conjuncts); when an entry
exists, the message is put on the existing queue and no worker is started
(third conjunct); neither emit nor the END-putting phase of flush ever
removes a queue entry (fourth and fifth conjuncts); and once the worker
of a stream has left its loop (phase stopped, which is where processing
the sentinel of a flush leaves it), no later action restarts it: anything
put on the queue afterwards stays there and the submitted batches never
grow (sixth conjunct), so such messages are never dequeued or
submitted. -/
theorem c10_flushed_stream_messages_stranded
    (maxSize maxCount : Nat) (st : HandlerState) (message : LogRecord)
    (createRes : CreateStreamResult) (r1 r2 : PutLogEventsResult)
    (s : WState) (acts : List Act) :
    ((emit st message createRes r1 r2).spawnedWorker = true →
        alookup st.queues message.name = none)
  ∧ (st.use_queues = true → message.name ∈ st.seen →
        alookup st.queues message.name = none →
        (emit st message createRes r1 r2).spawnedWorker = true)
  ∧ (st.use_queues = true → message.name ∈ st.seen →
        ∀ q, alookup st.queues message.name = some q →
          (emit st message createRes r1 r2).spawnedWorker = false
        ∧ alookup (emit st message createRes r1 r2).state.queues message.name
            = some (q ++ [QItem.msg { timestamp := message.createdMs,
                                      message := message.msg }]))
  ∧ (st.use_queues = true → ∀ k, (alookup st.queues k).isSome = true →
        (alookup (emit st message createRes r1 r2).state.queues k).isSome = true)
  ∧ (∀ k, (alookup (flushPutEnds st).queues k).isSome = (alookup st.queues k).isSome)
  ∧ (s.phase = .stopped →
        (runActs maxSize maxCount s acts).phase = .stopped
      ∧ (runActs maxSize maxCount s acts).submitted = s.submitted
      ∧ (runActs maxSize maxCount s acts).queue = s.queue ++ putsOf acts) := by
  refine ⟨?_, ?_, ?_, ?_, ?_, ?_⟩
  · intro hsp
    by_cases hseen : message.name ∈ st.seen
    · by_cases hq : st.use_queues = true
      · have h := (emitAfterRegistration_facts st message r1 r2 hq).2.2.1
        exact h.mp (by simpa [emit, hseen] using hsp)
      · have hq' : st.use_queues = false := by
          cases hb : st.use_queues
          · rfl
          · exact absurd hb hq
        simp [emit, hseen, emitAfterRegistration, hq'] at hsp
    · cases createRes with
      | otherError e2 => simp [emit, hseen] at hsp
      | ok =>
        by_cases hq : st.use_queues = true
        · have h := (emitAfterRegistration_facts
            { st with seen := message.name :: st.seen,
                      sequence_tokens :=
                        fun s => if s = message.name then none else st.sequence_tokens s }
            message r1 r2 hq).2.2.1
          exact h.mp (by simpa [emit, hseen] using hsp)
        · have hq' : st.use_queues = false := by
            cases hb : st.use_queues
            · rfl
            · exact absurd hb hq
          simp [emit, hseen, emitAfterRegistration, hq'] at hsp
      | alreadyExists =>
        by_cases hq : st.use_queues = true
        · have h := (emitAfterRegistration_facts
            { st with seen := message.name :: st.seen,
                      sequence_tokens :=
                        fun s => if s = message.name then none else st.sequence_tokens s }
            message r1 r2 hq).2.2.1
          exact h.mp (by simpa [emit, hseen] using hsp)
        · have hq' : st.use_queues = false := by
            cases hb : st.use_queues
            · rfl
            · exact absurd hb hq
          simp [emit, hseen, emitAfterRegistration, hq'] at hsp
  · intro hq hseen hnone
    have h := (emitAfterRegistration_facts st message r1 r2 hq).2.2.1
    simpa [emit, hseen] using h.mpr hnone
  · intro hq hseen q hsome
    have h := emitAfterRegistration_facts st message r1 r2 hq
    constructor
    · have hiff := h.2.2.1
      by_cases hb : (emitAfterRegistration st message r1 r2).spawnedWorker = true
      · rw [hiff.mp hb] at hsome
        exact Option.noConfusion hsome
      · simpa [emit, hseen] using (Bool.not_eq_true _).mp hb
    · have := h.2.2.2.2 q hsome
      simpa [emit, hseen] using this
  · intro hq k hk
    by_cases hseen : message.name ∈ st.seen
    · have h := (emitAfterRegistration_facts st message r1 r2 hq).2.2.2.1 k hk
      simpa [emit, hseen] using h
    · cases createRes with
      | otherError e2 => simpa [emit, hseen] using hk
      | ok =>
        have h := (emitAfterRegistration_facts
          { st with seen := message.name :: st.seen,
                    sequence_tokens :=
                      fun s => if s = message.name then none else st.sequence_tokens s }
          message r1 r2 hq).2.2.2.1 k hk
        simpa [emit, hseen] using h
      | alreadyExists =>
        have h := (emitAfterRegistration_facts
          { st with seen := message.name :: st.seen,
                    sequence_tokens :=
                      fun s => if s = message.name then none else st.sequence_tokens s }
          message r1 r2 hq).2.2.2.1 k hk
        simpa [emit, hseen] using h
  · intro k
    simp [flushPutEnds, alookup_map_end]
  · intro hstop
    exact runActs_stopped maxSize maxCount acts s hstop

/-- Witness for c10_flushed_stream_messages_stranded at concrete inputs:
a registered stream with no queue entry gets a worker started on emit,
and from a stopped worker state a later put leaves the submitted batches
unchanged. -/
theorem c10_witness :
    (emit { log_group := "g", use_queues := true, seen := ["s"],
            sequence_tokens := fun _ => none, queues := [] }
        { name := "s", createdMs := 0, msg := "m" } .ok
        (.ok false ("n")) (.ok false ("n"))).spawnedWorker = true
  ∧ (runActs 1 1 { winit with phase := .stopped } [Act.put ⟨0, "c"⟩]).submitted
      = ({ winit with phase := .stopped } : WState).submitted := by
  constructor
  · exact (c10_flushed_stream_messages_stranded 1 1
      { log_group := "g", use_queues := true, seen := ["s"],
        sequence_tokens := fun _ => none, queues := [] }
      { name := "s", createdMs := 0, msg := "m" } .ok
      (.ok false ("n")) (.ok false ("n")) winit []).2.1 rfl (by simp) rfl
  · exact ((c10_flushed_stream_messages_stranded 1 1
      { log_group := "g", use_queues := true, seen := ["s"],
        sequence_tokens := fun _ => none, queues := [] }
      { name := "s", createdMs := 0, msg := "m" } .ok
      (.ok false ("n")) (.ok false ("n"))
      { winit with phase := .stopped } [Act.put ⟨0, "c"⟩]).2.2.2.2.2 rfl).2.1

/-- C7 (code bug): flush can return while a message enqueued before the
flush is still unsubmitted. In the interleaving of c7Script, the worker
appends message a (task_done matches its put), the deadline elapses, the
producer puts message b between the Empty exception and the line 131
task_done of the timeout path, so that task_done consumes the credit of
b; flush then puts END; after the worker appends b (its task_done now
consumes the credit of END), unfinished_tasks is zero with END already
enqueued, so queue.join and hence flush return, while b sits in the
still-open batch, submitted to the store at no point: the submitted
batches are exactly [[a]] (and a was submitted once more into the reopened
batch, the C1 duplication). -/
theorem c7_flush_returns_early :
    (runActs 1048576 10000 winit c7Script).endPut = true
  ∧ (runActs 1048576 10000 winit c7Script).unfinished = 0
  ∧ (runActs 1048576 10000 winit c7Script).submitted = [[⟨0, "a"⟩]]
  ∧ (runActs 1048576 10000 winit c7Script).batch = [⟨0, "a"⟩, ⟨0, "b"⟩]
  ∧ (runActs 1048576 10000 winit c7Script).queue = [QItem.endMark] := by
  exact ⟨rfl, rfl, rfl, rfl, rfl⟩
